import Mathlib

/-!
Shallow embedding of two FlexGet plugins and proofs about them:
  * `flexget/plugins/plugin_deluge.py` (InputDeluge / OutputDeluge), and
  * `flexget/plugins/output/dump.py` (the console dump plugin).

Python strings are modelled as Lean `String` over their characters, Python
integers as `Nat`, dictionaries with a fixed key set as structures with
`Option` fields (a `none` field models an absent key), and Python `dict.get`
with a default as `Option.getD`.  Fallible code returns `Option`/an explicit
exception component.  External collaborators from the host framework that are
not part of this repository (`replace_from_entry`, `make_valid_path`) are
passed as function parameters of the model.
-/

/-! ### Python string primitives -/

/-- Python 2 `str.lower` on a byte character: only ASCII A-Z are lowered. -/
def pyLowerChar (c : Char) : Char :=
  if 65 ≤ c.toNat ∧ c.toNat ≤ 90 then Char.ofNat (c.toNat + 32) else c

/-- Python 2 `str.lower`. -/
def pyLower (s : String) : String :=
  String.mk (s.data.map pyLowerChar)

/-- Membership of the Python 2 regex class `\w` (no `re.UNICODE`): `[a-zA-Z0-9_]`. -/
def isWordChar (c : Char) : Bool :=
  (97 ≤ c.toNat && c.toNat ≤ 122) || (65 ≤ c.toNat && c.toNat ≤ 90) ||
    (48 ≤ c.toNat && c.toNat ≤ 57) || c = '_'

/-- Characters preserved by `re.sub('[^\w-]+', '_', ...)`: word characters and the hyphen. -/
def isLabelKeep (c : Char) : Bool :=
  isWordChar c || c = '-'

theorem dropWhile_length_le {α : Type} (p : α → Bool) (l : List α) :
    (l.dropWhile p).length ≤ l.length :=
  (List.IsSuffix.sublist (List.dropWhile_suffix p)).length_le

/-- The scan performed by `re.sub('[^\x5Cw-]+', '_', s)`: each maximal run of
characters outside the class is consumed in one match and replaced by a single
underscore. -/
def subLabelRuns : List Char → List Char
  | [] => []
  | c :: cs =>
    if isLabelKeep c then c :: subLabelRuns cs
    else '_' :: subLabelRuns (cs.dropWhile (fun d => !isLabelKeep d))
termination_by l => l.length
decreasing_by
  all_goals simp_wf
  all_goals (have h := dropWhile_length_le (fun d => !isLabelKeep d) cs; omega)

/-- plugin_deluge.py line 451-453, `format_label`: lowercase the label, then
replace every maximal run of characters outside `[\w-]` by one underscore. -/
def format_label (label : String) : String :=
  String.mk (subLabelRuns (pyLower label).data)

/-- Run-collapsing written declaratively: walk the characters with a flag
remembering whether we are inside a run of dropped characters; a kept character
is emitted, the first dropped character of a run is emitted as an underscore,
further dropped characters of the same run are skipped. -/
def collapseGo (keep : Char → Bool) : Bool → List Char → List Char
  | _, [] => []
  | inRun, c :: cs =>
    if keep c then c :: collapseGo keep false cs
    else if inRun then collapseGo keep inRun cs
    else '_' :: collapseGo keep true cs

/-- Collapse every maximal run of non-kept characters to a single underscore. -/
def collapseRuns (keep : Char → Bool) (s : String) : String :=
  String.mk (collapseGo keep false s.data)

/-- Python `dict.get(key, default)` for a string-valued key. -/
def pyDictGet (v : Option String) (default : String) : String :=
  v.getD default

/-- plugin_deluge.py line 646: the label put into `modify_opts` and later
submitted to the daemon via `client.label.set_torrent` on the deluge 1.2 path. -/
def modifyOptsLabel (entryLabel : Option String) (configLabel : String) : String :=
  format_label (pyDictGet entryLabel configLabel)

/-- plugin_deluge.py line 405: the label computed on the deluge 1.1 path and
submitted via `sclient.label_add` / `sclient.label_set_torrent`. -/
def label11 (entryLabel : Option String) (configLabel : String) : String :=
  pyLower (pyDictGet entryLabel configLabel)

theorem subLabelRuns_spec :
    ∀ n (cs : List Char), cs.length ≤ n →
      (subLabelRuns cs = collapseGo isLabelKeep false cs ∧
        collapseGo isLabelKeep true cs =
          subLabelRuns (cs.dropWhile (fun d => !isLabelKeep d))) := by
  intro n
  induction n with
  | zero =>
    intro cs h
    have : cs = [] := List.eq_nil_of_length_eq_zero (Nat.le_zero.mp h)
    subst this
    simp [subLabelRuns, collapseGo]
  | succ n ih =>
    intro cs h
    match cs with
    | [] => simp [subLabelRuns, collapseGo]
    | c :: cs =>
      have hlen : cs.length ≤ n := by
        have := h; simp only [List.length_cons] at this; omega
      constructor
      · by_cases hk : isLabelKeep c
        · simp [subLabelRuns, collapseGo, hk, (ih cs hlen).1]
        · simp [subLabelRuns, collapseGo, hk, (ih cs hlen).2]
      · by_cases hk : isLabelKeep c
        · simp [collapseGo, List.dropWhile_cons, hk, subLabelRuns, (ih cs hlen).1]
        · simp [collapseGo, List.dropWhile_cons, hk, (ih cs hlen).2]

/-- The regex-scan form of label collapsing agrees with the declarative
run-collapsing form. -/
theorem subLabelRuns_eq_collapseGo (cs : List Char) :
    subLabelRuns cs = collapseGo isLabelKeep false cs :=
  (subLabelRuns_spec cs.length cs le_rfl).1

/-- C1 (amended): on the deluge 1.2 api path, the label submitted to the
daemon is the lowercase form of the original with every maximal run of
characters that are neither word characters nor hyphens collapsed to a single
underscore; on the deluge 1.1 api path the submitted label is merely the
lowercase form of the original. -/
theorem c1_label_submitted (entryLabel : Option String) (configLabel : String) :
    modifyOptsLabel entryLabel configLabel =
      collapseRuns isLabelKeep (pyLower (pyDictGet entryLabel configLabel)) ∧
    label11 entryLabel configLabel = pyLower (pyDictGet entryLabel configLabel) := by
  constructor
  · unfold modifyOptsLabel format_label collapseRuns
    rw [subLabelRuns_eq_collapseGo]
  · rfl

/-- C1 (counterexample): the claim states that every maximal run of non-word
characters is replaced by an underscore, but `format_label` keeps hyphens
(a non-word character) unchanged: for the label `TV-Shows` the code submits
`tv-shows`, not the claimed `tv_shows`.  The deluge 1.1 path does not collapse
at all: for the label `My Shows` it submits `my shows`, not `my_shows`. -/
theorem c1_counterexample :
    modifyOptsLabel (some "TV-Shows") "" ≠
      collapseRuns isWordChar (pyLower "TV-Shows") ∧
    label11 (some "My Shows") "" ≠
      collapseRuns isWordChar (pyLower "My Shows") := by
  have e1 : modifyOptsLabel (some "TV-Shows") "" = "tv-shows" := by
    unfold modifyOptsLabel format_label
    rw [subLabelRuns_eq_collapseGo]
    decide
  have e2 : collapseRuns isWordChar (pyLower "TV-Shows") = "tv_shows" := by decide
  have e3 : label11 (some "My Shows") "" = "my shows" := by decide
  have e4 : collapseRuns isWordChar (pyLower "My Shows") = "my_shows" := by decide
  rw [e1, e2, e3, e4]
  exact ⟨by decide, by decide⟩

/-! ### OutputDeluge, deluge 1.2 api: adding entries inside on_get_session_state -/

/-- Python `str.startswith`. -/
def isPrefixOfCharList : List Char → List Char → Bool
  | [], _ => true
  | _ :: _, [] => false
  | a :: as, b :: bs => a = b && isPrefixOfCharList as bs

/-- Python `s.startswith(pre)`. -/
def pyStartsWith (s pre : String) : Bool :=
  isPrefixOfCharList pre.data s.data

/-- The entry fields read by `add_entry` (plugin_deluge.py lines 609-629). -/
structure AddEntryArgs where
  url : Option String
  file : Option String
  title : String
deriving DecidableEq

/-- Outcome of `add_entry`: which daemon call it returns, or the local failure.
`keyError` models the `entry['file']` lookup raising on an absent key. -/
inductive AddOutcome
  | magnetAdded (uri : String)
  | fileAdded (title : String)
  | entryFailed (msg : String)
  | keyError
deriving DecidableEq

/-- plugin_deluge.py lines 609-629, `add_entry`: a magnet url is submitted via
`client.core.add_torrent_magnet` without touching the filesystem; otherwise the
temp file's existence is checked first (a recorded filesystem access), the
entry is failed when it is absent, and otherwise the file is read (a second
access) and submitted via `client.core.add_torrent_file`.  The second
component records every local filesystem path accessed, in order.
`fs` is the set of paths that exist locally. -/
def add_entry (fs : List String) (e : AddEntryArgs) : AddOutcome × List String :=
  if pyStartsWith (pyDictGet e.url "") "magnet:" then
    (.magnetAdded (pyDictGet e.url ""), [])
  else
    match e.file with
    | none => (.keyError, [])
    | some f =>
      if f ∈ fs then (.fileAdded e.title, [f, f])
      else (.entryFailed ("Downloaded temp file '" ++ f ++ "' doesn't exist!"), [f])

/-- C2: a magnet-url entry is added with no local filesystem access; a
file-based entry first checks existence of its temp file and, when the file is
absent, is failed with the exact message `Downloaded temp file '<file>'
doesn't exist!` and no add call is issued (the outcome is the failure, not a
magnet or file add). -/
theorem c2_add_entry_filesystem (fs : List String) (e : AddEntryArgs) :
    (pyStartsWith (pyDictGet e.url "") "magnet:" = true →
      (add_entry fs e).2 = []) ∧
    (pyStartsWith (pyDictGet e.url "") "magnet:" = false →
      ∀ f, e.file = some f → f ∉ fs →
        add_entry fs e =
          (.entryFailed ("Downloaded temp file '" ++ f ++ "' doesn't exist!"), [f])) := by
  constructor
  · intro hmag
    simp [add_entry, hmag]
  · intro hmag f hf hnot
    simp [add_entry, hmag, hf, hnot]

theorem c2_witness :
    (add_entry [] { url := some "magnet:?xt=abc", file := none, title := "t" }).2 = [] ∧
    add_entry ["other.torrent"]
        { url := some "http://x/y.torrent", file := some "y.torrent", title := "t" } =
      (.entryFailed "Downloaded temp file 'y.torrent' doesn't exist!", ["y.torrent"]) :=
  ⟨(c2_add_entry_filesystem [] _).1 (by decide),
    (c2_add_entry_filesystem ["other.torrent"] _).2 (by decide) "y.torrent" rfl (by decide)⟩

/-! ### OutputDeluge, deluge 1.2 api: the per-entry add-or-modify decision -/

/-- Python truthiness of an optional string (`None` and `''` are falsy). -/
def pyTruthyStr : Option String → Bool
  | none => false
  | some s => s != ""

/-- Python `a or b` on optional strings. -/
def pyOr (a b : Option String) : Option String :=
  if pyTruthyStr a then a else b

/-- Python `x and x.lower()` on an optional string. -/
def pyAndLower (a : Option String) : Option String :=
  if pyTruthyStr a then a.map pyLower else a

/-- The `deluge` output plugin's prepared config fields used by
`on_get_session_state` (after `prepare_config` filled the string defaults). -/
structure OutConfig where
  path : String
  movedone : String
  label : String
  queuetotop : Option Bool := none
  content_filename : Option String := none
  main_file_only : Option Bool := none
deriving DecidableEq

/-- The entry fields read by the `on_get_session_state` loop body. -/
structure OutEntry where
  title : String
  url : Option String := none
  file : Option String := none
  delugeId : Option String := none
  infoHash : Option String := none
  label : Option String := none
  path : Option String := none
  movedone : Option String := none
  queuetotop : Option Bool := none
  content_filename : Option String := none
  main_file_only : Option Bool := none
deriving DecidableEq

/-- The post-add options dict built at plugin_deluge.py lines 642-649
(`modify_opts`); `path` is added only on the already-loaded branch. -/
structure ModifyOpts where
  movedone : String
  label : String
  queuetotop : Option Bool
  content_filename : String
  main_file_only : Bool
  path : Option String := none
deriving DecidableEq

/-- plugin_deluge.py lines 642-649.  `subst` models the host framework's
`replace_from_entry` (entry-template substitution) and `mvp` models
`make_valid_path(os.path.expanduser(.))`; both are external collaborators. -/
def modify_opts (subst mvp : String → String) (cfg : OutConfig) (e : OutEntry) : ModifyOpts :=
  { movedone := mvp (subst (pyDictGet e.movedone cfg.movedone)),
    label := modifyOptsLabel e.label cfg.label,
    queuetotop := e.queuetotop.orElse (fun _ => cfg.queuetotop),
    content_filename := subst (pyDictGet e.content_filename (cfg.content_filename.getD "")),
    main_file_only := e.main_file_only.getD (cfg.main_file_only.getD false) }

/-- plugin_deluge.py lines 632-635: the `download_location` entry of
`add_opts`, present only when the substituted path is non-empty. -/
def addPathLocation (subst mvp : String → String) (cfg : OutConfig) (e : OutEntry) :
    Option String :=
  let path := subst (pyDictGet e.path cfg.path)
  if path ≠ "" then some (mvp path) else none

/-- The daemon calls and local feed actions the `on_get_session_state` loop
body can issue for one entry. -/
inductive SessionAction
  | modifyOptionsCall (tid : String) (opts : ModifyOpts)
  | coreSetOptionsCall (tid : String)
  | addMagnetCall (uri : String) (loc : Option String)
  | addFileCall (title : String) (loc : Option String)
  | failEntry (title msg : String)
deriving DecidableEq

def isModifyAction : SessionAction → Bool
  | .modifyOptionsCall _ _ => true
  | .coreSetOptionsCall _ => true
  | _ => false

def isAddCallAction : SessionAction → Bool
  | .addMagnetCall _ _ => true
  | .addFileCall _ _ => true
  | _ => false

/-- plugin_deluge.py line 661: `add_entry(entry, add_opts).addCallbacks(...)`.
A successful add returns a deferred and registers `set_torrent_options` /
`on_fail`; when `add_entry` instead failed the entry and returned `None`, the
`.addCallbacks` attribute access raises `AttributeError`, and an absent
`'file'` key raises `KeyError` out of `add_entry` itself.  The second
component is the Python exception escaping the loop body, if any. -/
def addCallbacksResult (loc : Option String) (title : String)
    (r : AddOutcome × List String) : List SessionAction × Option String :=
  match r.1 with
  | .magnetAdded uri => ([.addMagnetCall uri loc], none)
  | .fileAdded t => ([.addFileCall t loc], none)
  | .entryFailed msg => ([.failEntry title msg], some "AttributeError")
  | .keyError => ([], some "KeyError")

/-- The add branch of the loop body (entry not in the session). -/
def addBranch (subst mvp : String → String) (fs : List String) (cfg : OutConfig)
    (e : OutEntry) : List SessionAction × Option String :=
  addCallbacksResult (addPathLocation subst mvp cfg e) e.title
    (add_entry fs { url := e.url, file := e.file, title := e.title })

/-- plugin_deluge.py lines 607-662: one iteration of the `on_get_session_state`
loop.  `ids` is the list of torrent ids in the daemon session. -/
def processEntry (subst mvp : String → String) (fs ids : List String) (cfg : OutConfig)
    (e : OutEntry) : List SessionAction × Option String :=
  match pyAndLower (pyOr e.delugeId e.infoHash) with
  | some tid =>
    if tid ∈ ids then
      ([.modifyOptionsCall tid
          { modify_opts subst mvp cfg e with path := addPathLocation subst mvp cfg e },
        .coreSetOptionsCall tid], none)
    else addBranch subst mvp fs cfg e
  | none => addBranch subst mvp fs cfg e

/-- The claim's identifier: the entry's deluge id, or else its torrent info
hash, lowercased. -/
def claimIdentifier (e : OutEntry) : Option String :=
  match e.delugeId with
  | some d => some (pyLower d)
  | none => e.infoHash.map pyLower

/-- Whether the claim's identifier is among the session's torrent ids. -/
def claimIdentifierMem (e : OutEntry) (ids : List String) : Bool :=
  (claimIdentifier e).elim false (fun t => decide (t ∈ ids))

theorem codeId_eq_claimId (e : OutEntry) (h1 : e.delugeId ≠ some "")
    (h2 : e.infoHash ≠ some "") :
    pyAndLower (pyOr e.delugeId e.infoHash) = claimIdentifier e := by
  cases hd : e.delugeId with
  | some d =>
    have hne : d ≠ "" := fun h => h1 (by rw [hd, h])
    simp [pyOr, pyAndLower, pyTruthyStr, claimIdentifier, hd, hne]
  | none =>
    cases hh : e.infoHash with
    | none => simp [pyOr, pyAndLower, pyTruthyStr, claimIdentifier, hd, hh]
    | some s =>
      have hne : s ≠ "" := fun h => h2 (by rw [hh, h])
      simp [pyOr, pyAndLower, pyTruthyStr, claimIdentifier, hd, hh, hne]

/-- C3: when the entry's identifier (deluge id, or else torrent info hash,
lowercased) is among the torrent ids loaded in the daemon session, the loop
body issues exactly the modify-options pair of calls and no add call; when the
identifier is absent, the loop body takes the add branch, which issues no
modify-options call.  (Real torrent ids are non-empty, whence the two side
conditions.) -/
theorem c3_add_or_modify (subst mvp : String → String) (fs ids : List String)
    (cfg : OutConfig) (e : OutEntry) (h1 : e.delugeId ≠ some "")
    (h2 : e.infoHash ≠ some "") :
    (claimIdentifierMem e ids = true →
      ∃ t, claimIdentifier e = some t ∧
        processEntry subst mvp fs ids cfg e =
          ([.modifyOptionsCall t
              { modify_opts subst mvp cfg e with path := addPathLocation subst mvp cfg e },
            .coreSetOptionsCall t], none)) ∧
    (claimIdentifierMem e ids = false →
      processEntry subst mvp fs ids cfg e = addBranch subst mvp fs cfg e ∧
        ∀ a ∈ (processEntry subst mvp fs ids cfg e).1, isModifyAction a = false) := by
  have hid := codeId_eq_claimId e h1 h2
  constructor
  · intro hmem
    cases hcl : claimIdentifier e with
    | none => simp [claimIdentifierMem, hcl] at hmem
    | some t =>
      have ht : t ∈ ids := by
        have := hmem
        rw [claimIdentifierMem, hcl] at this
        exact of_decide_eq_true this
      refine ⟨t, rfl, ?_⟩
      unfold processEntry
      rw [hid, hcl]
      simp [ht]
  · intro hmem
    have hbranch : processEntry subst mvp fs ids cfg e = addBranch subst mvp fs cfg e := by
      unfold processEntry
      rw [hid]
      cases hcl : claimIdentifier e with
      | none => rfl
      | some t =>
        have ht : t ∉ ids := by
          rw [claimIdentifierMem, hcl] at hmem
          exact of_decide_eq_false hmem
        simp [ht]
    refine ⟨hbranch, ?_⟩
    rw [hbranch]
    unfold addBranch addCallbacksResult
    cases (add_entry fs { url := e.url, file := e.file, title := e.title }).1 <;>
      simp [isModifyAction]

theorem c3_witness :
    (∃ t, claimIdentifier { title := "t", delugeId := some "AB" } = some t ∧
      processEntry id id [] ["ab"] { path := "", movedone := "", label := "" }
          { title := "t", delugeId := some "AB" } =
        ([.modifyOptionsCall t
            { modify_opts id id { path := "", movedone := "", label := "" }
                { title := "t", delugeId := some "AB" } with
              path := addPathLocation id id { path := "", movedone := "", label := "" }
                { title := "t", delugeId := some "AB" } },
          .coreSetOptionsCall t], none)) ∧
    processEntry id id [] ["ab"] { path := "", movedone := "", label := "" }
        { title := "u", url := some "magnet:?xt=q" } =
      addBranch id id [] { path := "", movedone := "", label := "" }
        { title := "u", url := some "magnet:?xt=q" } :=
  ⟨(c3_add_or_modify id id [] ["ab"] _ _ (by decide) (by decide)).1 (by decide),
    ((c3_add_or_modify id id [] ["ab"] _ _ (by decide) (by decide)).2 (by decide)).1⟩

/-! ### OutputDeluge.on_feed_download and add_to_deluge11: per-entry failures -/

/-- A local file together with whether `deluge.ui.common.TorrentInfo` can
parse it. -/
structure LocalFile where
  path : String
  validTorrent : Bool
deriving DecidableEq

def fsHas (fs : List LocalFile) (p : String) : Bool :=
  fs.any (fun f => f.path == p)

def fsValidTorrent (fs : List LocalFile) (p : String) : Bool :=
  (fs.find? (fun f => f.path == p)).elim false (fun f => f.validTorrent)

/-- plugin_deluge.py lines 333-341: if the entry's temp file exists but does
not parse as a torrent, the entry is failed with `Invalid torrent file`;
otherwise nothing happens to it here. -/
def checkTorrentFile (fs : List LocalFile) (e : OutEntry) : Option String :=
  if fsHas fs (pyDictGet e.file "") then
    if fsValidTorrent fs (pyDictGet e.file "") then none
    else some "Invalid torrent file"
  else none

/-- The torrent-validity pass of `on_feed_download` over the accepted entries:
each entry is checked independently (the loop has no early exit). -/
def on_feed_download_check (fs : List LocalFile) (accepted : List OutEntry) :
    List (OutEntry × Option String) :=
  accepted.map (fun e => (e, checkTorrentFile fs e))

/-- Per-entry outcome of the deluge 1.1 add loop. -/
inductive Outcome11
  | added (label : String)
  | failedNoFileKey
  | failedMissingFile (msg : String)
deriving DecidableEq

/-- plugin_deluge.py lines 388-435: one iteration of the `add_to_deluge11`
loop; a missing `'file'` key fails the entry (`file missing?`), a missing temp
file fails it with the exact message, and otherwise the torrent is added,
carrying the lowercased label (line 405) that `label_set_torrent` then
applies when it is non-empty. -/
def add11Entry (fs : List String) (cfg : OutConfig) (e : OutEntry) : Outcome11 :=
  match e.file with
  | none => .failedNoFileKey
  | some f =>
    if f ∈ fs then .added (label11 e.label cfg.label)
    else .failedMissingFile ("Downloaded temp file '" ++ f ++ "' doesn't exist!?")

/-- The deluge 1.1 add loop over the accepted entries: each entry is handled
independently (`continue` after a failure). -/
def add_to_deluge11 (fs : List String) (cfg : OutConfig) (accepted : List OutEntry) :
    List Outcome11 :=
  accepted.map (add11Entry fs cfg)

/-- plugin_deluge.py lines 602-663: the whole `on_get_session_state` loop.  A
Python exception escaping one iteration (see `addCallbacksResult`) aborts the
loop: later entries are not processed. -/
def on_get_session_state (subst mvp : String → String) (fs ids : List String)
    (cfg : OutConfig) : List OutEntry → List SessionAction × Option String
  | [] => ([], none)
  | e :: rest =>
    match processEntry subst mvp fs ids cfg e with
    | (acts, some ex) => (acts, some ex)
    | (acts, none) =>
      let r := on_get_session_state subst mvp fs ids cfg rest
      (acts ++ r.1, r.2)

/-- C6 (bug evidence): on the deluge 1.2 path, an entry whose temp file is
missing is failed with the descriptive message, but `add_entry` then returns
`None` and line 661's `.addCallbacks` access raises `AttributeError`, aborting
the loop: the healthy entry after it is never submitted.  The deluge 1.1 path
on the same batch fails the broken entry and still adds the healthy one. -/
theorem c6_missing_file_batch :
    on_get_session_state id id ["good.torrent"] []
        { path := "", movedone := "", label := "" }
        [{ title := "bad", url := some "http://a", file := some "gone.torrent" },
         { title := "good", url := some "http://b", file := some "good.torrent" }] =
      ([.failEntry "bad" "Downloaded temp file 'gone.torrent' doesn't exist!"],
        some "AttributeError") ∧
    add_to_deluge11 ["good.torrent"] { path := "", movedone := "", label := "" }
        [{ title := "bad", url := some "http://a", file := some "gone.torrent" },
         { title := "good", url := some "http://b", file := some "good.torrent" }] =
      [.failedMissingFile "Downloaded temp file 'gone.torrent' doesn't exist!?",
        .added ""] := by
  constructor
  · rfl
  · rfl

/-! ### OutputDeluge.set_torrent_options: content renaming (deluge 1.2 api) -/

/-- A file entry of a torrent's status, as returned by
`client.core.get_torrent_status`. -/
structure DFile where
  index : Nat
  path : String
  size : Nat
deriving DecidableEq

/-- The status keys requested at plugin_deluge.py line 539. -/
structure TorrentStatus where
  files : List DFile
  total_size : Nat
  save_path : String
  move_on_completed : Bool
  move_on_completed_path : String
deriving DecidableEq

/-- Python `s.endswith(suffix)`. -/
def pyEndsWith (s suf : String) : Bool :=
  isPrefixOfCharList suf.data.reverse s.data.reverse

/-- `os.path.join` for two components (posix flavour). -/
def pathJoin (a b : String) : String :=
  if pyStartsWith b "/" then b
  else if a = "" then b
  else if pyEndsWith a "/" then a ++ b
  else a ++ "/" ++ b

/-- `os.path.basename`: the part after the last slash. -/
def basename (p : String) : String :=
  String.mk (p.data.reverse.takeWhile (fun c => c ≠ '/')).reverse

/-- The extension component of `os.path.splitext`: the part of the basename
from its last dot on, provided some earlier character of the basename is not a
dot (CPython's leading-dot rule). -/
def splitextExt (p : String) : String :=
  let base := (p.data.reverse.takeWhile (fun c => c ≠ '/')).reverse
  let afterDotRev := base.reverse.takeWhile (fun c => c ≠ '.')
  if afterDotRev.length = base.length then ""
  else
    let stem := base.take (base.length - afterDotRev.length - 1)
    if stem.any (fun c => c ≠ '.') then String.mk ('.' :: afterDotRev.reverse) else ""

/-- plugin_deluge.py lines 506-514, `file_exists`: the download path and
(when move-on-completed is configured) the move-completed path are checked for
the candidate filename. -/
def file_exists (fs : List String) (st : TorrentStatus) (filename : String) : Bool :=
  if fs.contains (pathJoin st.save_path filename) then true
  else if st.move_on_completed && st.move_on_completed_path != "" then
    fs.contains (pathJoin st.move_on_completed_path filename)
  else false

/-- plugin_deluge.py lines 522-527: append `(1)`, `(2)`, ... until the name is
free.  The Python `while` loop terminates because the finitely many existing
files can collide with only finitely many candidates; the model runs it with
fuel `fs.length + 1`, which covers every reachable iteration. -/
def uniqueNameLoop (fs : List String) (st : TorrentStatus) (cf ext : String) :
    Nat → Nat → String → String
  | 0, _, fn => fn
  | fuel + 1, counter, fn =>
    if file_exists fs st fn then
      uniqueNameLoop fs st cf ext fuel (counter + 1)
        (cf ++ "(" ++ toString counter ++ ")" ++ ext)
    else fn

/-- plugin_deluge.py lines 521-529: the content filename finally used by the
rename call. -/
def chooseFilename (localhost : Bool) (fs : List String) (st : TorrentStatus)
    (cf ext : String) : String :=
  let fn := cf ++ ext
  if localhost then uniqueNameLoop fs st cf ext (fs.length + 1) 1 fn else fn

/-- plugin_deluge.py line 533: priority 1 for the main file, 0 elsewhere. -/
def filePriorities (files : List DFile) (idx : Nat) : List Nat :=
  files.map (fun f => if f.index = idx then 1 else 0)

/-- The daemon calls `on_get_torrent_status` can issue. -/
inductive StatusAction
  | renameCall (tid : String) (index : Nat) (filename : String)
  | setPrioritiesCall (tid : String) (prios : List Nat)
deriving DecidableEq

/-- plugin_deluge.py lines 516-537: walk the files in order; the first file
whose size strictly exceeds 90 percent of the total content size gets the
rename call (when `content_filename` is set) and the priorities call (when
`main_file_only` is set) and the walk stops; if no file qualifies only a
warning is logged.  The `size > total_size * 0.9` comparison over the integral
sizes is modelled exactly as `10 * size > 9 * total_size`. -/
def scanFiles (localhost : Bool) (fs : List String) (cf : String) (mfo : Bool)
    (tid : String) (st : TorrentStatus) : List DFile → List StatusAction
  | [] => []
  | f :: rest =>
    if 10 * f.size > 9 * st.total_size then
      (if cf != "" then
        [.renameCall tid f.index (chooseFilename localhost fs st cf (splitextExt f.path))]
      else []) ++
      (if mfo then [.setPrioritiesCall tid (filePriorities st.files f.index)] else [])
    else scanFiles localhost fs cf mfo tid st rest

/-- plugin_deluge.py lines 502-540, `on_get_torrent_status` (registered when
`content_filename` or `main_file_only` is set; an empty `cf` models the falsy
empty `content_filename`). -/
def on_get_torrent_status (localhost : Bool) (fs : List String) (cf : String)
    (mfo : Bool) (tid : String) (st : TorrentStatus) : List StatusAction :=
  scanFiles localhost fs cf mfo tid st st.files

theorem scanFiles_rename_qualifies (localhost : Bool) (fs : List String) (cf : String)
    (mfo : Bool) (tid : String) (st : TorrentStatus) :
    ∀ l i fn, StatusAction.renameCall tid i fn ∈ scanFiles localhost fs cf mfo tid st l →
      ∃ f ∈ l, f.index = i ∧ 10 * f.size > 9 * st.total_size := by
  intro l
  induction l with
  | nil => intro i fn h; simp [scanFiles] at h
  | cons f rest ih =>
    intro i fn h
    rw [scanFiles] at h
    by_cases hq : 10 * f.size > 9 * st.total_size
    · simp only [hq, if_pos] at h
      rcases List.mem_append.mp h with h1 | h2
      · by_cases hcf : cf != ""
        · simp [hcf] at h1
          exact ⟨f, List.mem_cons_self f rest, h1.1.symm, hq⟩
        · simp [hcf] at h1
      · by_cases hm : mfo
        · simp [hm] at h2
        · simp [hm] at h2
    · simp only [hq, if_neg, if_false] at h
      obtain ⟨g, hg, hgi⟩ := ih i fn h
      exact ⟨g, List.mem_cons_of_mem f hg, hgi⟩

theorem scanFiles_no_qualifier_nil (localhost : Bool) (fs : List String) (cf : String)
    (mfo : Bool) (tid : String) (st : TorrentStatus) :
    ∀ l, (∀ f ∈ l, ¬(10 * f.size > 9 * st.total_size)) →
      scanFiles localhost fs cf mfo tid st l = [] := by
  intro l
  induction l with
  | nil => intro _; rw [scanFiles]
  | cons f rest ih =>
    intro hall
    rw [scanFiles]
    have hf := hall f (List.mem_cons_self f rest)
    simp only [hf, if_neg, if_false]
    exact ih (fun g hg => hall g (List.mem_cons_of_mem f hg))

/-- C4: when `content_filename` or `main_file_only` is configured, every
rename call issued by `on_get_torrent_status` is for a file whose size
strictly exceeds 90 percent of the torrent's total content size, and when no
file exceeds that threshold no call at all (in particular no rename) is
issued. -/
theorem c4_rename_threshold (localhost : Bool) (fs : List String) (cf : String)
    (mfo : Bool) (tid : String) (st : TorrentStatus)
    (_hopts : cf ≠ "" ∨ mfo = true) :
    (∀ i fn, StatusAction.renameCall tid i fn ∈ on_get_torrent_status localhost fs cf mfo tid st →
      ∃ f ∈ st.files, f.index = i ∧ 10 * f.size > 9 * st.total_size) ∧
    ((∀ f ∈ st.files, ¬(10 * f.size > 9 * st.total_size)) →
      on_get_torrent_status localhost fs cf mfo tid st = []) := by
  constructor
  · intro i fn h
    exact scanFiles_rename_qualifies localhost fs cf mfo tid st st.files i fn h
  · intro hall
    exact scanFiles_no_qualifier_nil localhost fs cf mfo tid st st.files hall

theorem c4_witness :
    (∃ f ∈ ({ files := [{ index := 0, path := "a/b.mkv", size := 95 }], total_size := 100, save_path := "", move_on_completed := false, move_on_completed_path := "" } : TorrentStatus).files,
      f.index = 0 ∧ 10 * f.size > 9 * (100 : Nat)) ∧
    on_get_torrent_status false [] "movie" false "tid"
        { files := [{ index := 0, path := "a/b.mkv", size := 50 }], total_size := 100, save_path := "", move_on_completed := false, move_on_completed_path := "" } = [] := by
  constructor
  · exact (c4_rename_threshold false [] "movie" false "tid" _ (Or.inl (by decide))).1
      0 "movie.mkv" (by decide)
  · exact (c4_rename_threshold false [] "movie" false "tid" _ (Or.inl (by decide))).2
      (by decide)

/-! ### OutputDeluge.on_connect_success: the 30 second watchdog -/

/-- What `on_timeout` does. -/
inductive TimerAction
  | logTimeoutError
  | disconnectCall
deriving DecidableEq

/-- plugin_deluge.py lines 671-676, `on_timeout`: log the error, then
disconnect, with no further condition. -/
def on_timeout : List TimerAction := [.logTimeoutError, .disconnectCall]

/-- plugin_deluge.py line 679:
`reactor.callLater(30, lambda: tasks.called or on_timeout(tasks))` — a single
timer for the whole batch; its delay in seconds, and its callback as a
function of whether the batch's `DeferredList` has fired. -/
def timeoutTimer : Nat × (Bool → List TimerAction) :=
  (30, fun tasksCalled => if tasksCalled then [] else on_timeout)

/-- C5: one 30-second timer covers the whole batch; when it fires before the
batch's deferred list has completed it logs an error and closes the connection
unconditionally (the callback consults nothing but `tasks.called`); when the
batch completed in time the callback does nothing. -/
theorem c5_watchdog :
    timeoutTimer.1 = 30 ∧
    timeoutTimer.2 false = [TimerAction.logTimeoutError, TimerAction.disconnectCall] ∧
    timeoutTimer.2 true = [] :=
  ⟨rfl, rfl, rfl⟩

/-! ### DelugePlugin.connect: connection failure aborts the batch -/

/-- What the paused reactor hands back to `connect`: either the value produced
by the success callback (modelled as the batch of per-job actions it would
dispatch) or the exception passed to `reactor.pause` by the errback. -/
inductive ReactorOutcome
  | ops (acts : List SessionAction)
  | exn (msg : String)
deriving DecidableEq

/-- plugin_deluge.py lines 122-125, `on_connect_fail`: pause the reactor with
`PluginError('Could not connect to deluge daemon')`. -/
def on_connect_fail : ReactorOutcome := .exn "Could not connect to deluge daemon"

/-- plugin_deluge.py lines 131-146, `connect`: run the connection deferred;
success invokes `on_connect_success` (whose per-job work is
`onSuccessActions`), failure invokes `on_connect_fail`; an exception result is
re-raised. -/
def deluge_connect (connected : Bool) (onSuccessActions : List SessionAction) :
    Except String (List SessionAction) :=
  match (if connected then ReactorOutcome.ops onSuccessActions else on_connect_fail) with
  | .exn m => .error m
  | .ops acts => .ok acts

/-- C9: when the daemon connection fails, `connect` raises the plugin error
`Could not connect to deluge daemon`; no per-job operations are attempted (the
result is never an action batch). -/
theorem c9_connect_failure (onSuccessActions : List SessionAction) :
    deluge_connect false onSuccessActions =
      Except.error "Could not connect to deluge daemon" ∧
    ∀ acts, deluge_connect false onSuccessActions ≠ Except.ok acts := by
  refine ⟨rfl, ?_⟩
  intro acts h
  simp [deluge_connect, on_connect_fail] at h

/-! ### The dump plugin (flexget/plugins/output/dump.py) -/

/-- Python `s.replace(c, '')`: remove every occurrence of the character. -/
def pyRemoveChar (c : Char) (s : String) : String :=
  String.mk (s.data.filter (fun d => d != c))

/-- dump.py line 38: `value.replace('\r', '').replace('\n', '')`. -/
def stripCRLF (s : String) : String :=
  pyRemoveChar '\n' (pyRemoveChar '\r' s)

/-- Python `'%-Ns' % s`: left-justify in a field of width `w`. -/
def pad (w : Nat) (s : String) : String :=
  s ++ String.mk (List.replicate (w - s.length) ' ')

/-- The `'%-17s: %s'` line layout of dump.py. -/
def fmtLine (field valStr : String) : String :=
  pad 17 field ++ ": " ++ valStr

/-- dump.py line 33: the fixed placeholder for unevaluated lazy fields. -/
def lazyPlaceholder : String :=
  "<LazyField - value will be determined when it is accessed>"

/-- The value types dump.py line 36-49 dispatches on.  `prim` carries the
`'%s'` rendering of an int, float or dict; `other` carries the `repr` of a
value that is only printed in debug mode. -/
inductive PyVal
  | str (s : String)
  | list (elems : List String)
  | prim (s : String)
  | pynone
  | other (r : String)
deriving DecidableEq

/-- dump.py lines 36-49: render one field's line; `none` when nothing is
printed (a non-printable value without `debug`). -/
def renderVal (debug : Bool) (field : String) : PyVal → Option String
  | .str v => some (fmtLine field (stripCRLF v))
  | .list es => some (fmtLine field ("[" ++ String.intercalate ", " es ++ "]"))
  | .prim s => some (fmtLine field s)
  | .pynone => some (fmtLine field "None")
  | .other r => if debug then some (pad 17 field ++ ": [not printable] (" ++ r ++ ")") else none

/-- One field of an entry, with its lazy flag (`entry.is_lazy(field)`). -/
structure EntryField where
  name : String
  val : PyVal
  lazy : Bool
deriving DecidableEq

/-- One item of `entry.traces`: `(item[0], item[1], item[2])` with `item[1]`
possibly `None`. -/
structure TraceItem where
  stage : String
  state : Option String
  message : String
deriving DecidableEq

/-- An entry as the dump plugin sees it. -/
structure DumpEntry where
  fields : List EntryField
  traces : List TraceItem
deriving DecidableEq

/-- Byte-wise lexicographic string comparison (Python 2 `str` comparison;
identical to code-point comparison for the ASCII field names involved). -/
def strLeChars : List Char → List Char → Bool
  | [], _ => true
  | _ :: _, [] => false
  | a :: as, b :: bs =>
    if a.toNat < b.toNat then true
    else if b.toNat < a.toNat then false
    else strLeChars as bs

def strLe (a b : String) : Bool :=
  strLeChars a.data b.data

/-- A Python 2 sort key as returned by dump.py's `sort_key`: an int for the
three pinned fields, the field name itself otherwise. -/
inductive PyKey
  | int (n : Nat)
  | str (s : String)
deriving DecidableEq

/-- dump.py lines 20-28, `sort_key`. -/
def sort_key (field : String) : PyKey :=
  if field = "title" then .int 0
  else if field = "url" then .int 1
  else if field = "original_url" then .int 2
  else .str field

/-- Python 2 mixed-type comparison of sort keys: any int compares below any
str, ints by value, strs byte-lexicographically. -/
def py2KeyLe : PyKey → PyKey → Bool
  | .int a, .int b => a ≤ b
  | .int _, .str _ => true
  | .str _, .int _ => false
  | .str a, .str b => strLe a b

def keyLe (a b : String) : Bool :=
  py2KeyLe (sort_key a) (sort_key b)

def insertSorted {α : Type} (le : α → α → Bool) (x : α) : List α → List α
  | [] => [x]
  | y :: ys => if le x y then x :: y :: ys else y :: insertSorted le x ys

/-- Stable insertion sort, modelling Python's stable `sorted`. -/
def isort {α : Type} (le : α → α → Bool) : List α → List α
  | [] => []
  | x :: xs => insertSorted le x (isort le xs)

/-- dump.py line 53: `'%-10s %-7s %s' % (item[0], '' if item[1] is None else
item[1], item[2])`. -/
def traceLine (t : TraceItem) : String :=
  pad 10 t.stage ++ " " ++ pad 7 (t.state.getD "") ++ " " ++ t.message

/-- dump.py lines 30-54 for one entry: the printed lines, in order (field
lines over the sorted fields, then the trace block when requested, then the
final blank line). -/
def dumpEntry (debug evalLazy traceFlag : Bool) (e : DumpEntry) : List String :=
  ((isort (fun a b => keyLe a.name b.name) e.fields).filterMap (fun f =>
    renderVal debug f.name (if f.lazy && !evalLazy then .str lazyPlaceholder else f.val)))
  ++ (if traceFlag then "-- Processing trace:" :: e.traces.map traceLine else [])
  ++ [""]

/-- dump.py `dump`: all entries in order. -/
def dump (debug evalLazy traceFlag : Bool) (entries : List DumpEntry) : List String :=
  entries.flatMap (dumpEntry debug evalLazy traceFlag)

/-- C7: the line printed for a string-valued field is the field name padded
to 17 columns, then `: `, then the value with every carriage-return and
newline character removed; the stripped value contains no CR and no LF. -/
theorem c7_strip_crlf (debug : Bool) (field v : String) :
    renderVal debug field (.str v) = some (fmtLine field (stripCRLF v)) ∧
    ∀ c ∈ (stripCRLF v).data, c ≠ '\r' ∧ c ≠ '\n' := by
  refine ⟨rfl, ?_⟩
  intro c hc
  have hc' : c ∈ ((pyRemoveChar '\r' v).data.filter (fun d => d != '\n')) := hc
  rcases List.mem_filter.mp hc' with ⟨h2, h3⟩
  have h2' : c ∈ (v.data.filter (fun d => d != '\r')) := h2
  rcases List.mem_filter.mp h2' with ⟨_, h5⟩
  exact ⟨by simpa using h5, by simpa using h3⟩

theorem c7_witness :
    renderVal true "title" (.str "a\r\nb") = some (fmtLine "title" (stripCRLF "a\r\nb")) ∧
    ('a' ≠ '\r' ∧ 'a' ≠ '\n') :=
  ⟨(c7_strip_crlf true "title" "a\r\nb").1,
    (c7_strip_crlf true "title" "a\r\nb").2 'a' (by decide)⟩

/-- The spec's field rank: `title`, `url`, `original_url` pinned first in
that order, every other field after them. -/
def rank (field : String) : Nat :=
  if field = "title" then 0
  else if field = "url" then 1
  else if field = "original_url" then 2
  else 3

/-- The spec's field ordering: by rank, and the unpinned fields among
themselves in sorted (byte-lexicographic) order. -/
def specKeyLe (a b : String) : Bool :=
  if rank a < rank b then true
  else if rank b < rank a then false
  else if rank a = 3 then strLe a b
  else true

theorem rank_cases (a : String) :
    rank a = 0 ∧ a = "title" ∨ rank a = 1 ∧ a = "url" ∨
      rank a = 2 ∧ a = "original_url" ∨
      rank a = 3 ∧ a ≠ "title" ∧ a ≠ "url" ∧ a ≠ "original_url" := by
  unfold rank
  split_ifs <;> simp_all

/-- The Python 2 mixed-type comparison of `sort_key` values implements
exactly the spec's pinned-first ordering. -/
theorem keyLe_eq_specKeyLe (a b : String) : keyLe a b = specKeyLe a b := by
  rcases rank_cases a with ⟨h, rfl⟩ | ⟨h, rfl⟩ | ⟨h, rfl⟩ | ⟨h, h1⟩ <;>
    rcases rank_cases b with ⟨h', rfl⟩ | ⟨h', rfl⟩ | ⟨h', rfl⟩ | ⟨h', h2⟩ <;>
    simp_all [keyLe, specKeyLe, sort_key, py2KeyLe]

/-- The spec's rendering of one field: an unevaluated lazy field prints the
fixed placeholder; a string prints with CR/LF stripped; a list prints
bracketed and comma-joined; ints, floats and dicts print via `%s`; `None`
prints as `None`; a non-printable value prints only in debug mode.  All field
lines use the `%-17s: %s` layout. -/
def specRenderField (debug evalLazy : Bool) (f : EntryField) : Option String :=
  if f.lazy && !evalLazy then some (fmtLine f.name lazyPlaceholder)
  else
    match f.val with
    | .str v => some (fmtLine f.name (stripCRLF v))
    | .list es => some (fmtLine f.name ("[" ++ String.intercalate ", " es ++ "]"))
    | .prim s => some (fmtLine f.name s)
    | .pynone => some (fmtLine f.name "None")
    | .other r => if debug then some (pad 17 f.name ++ ": [not printable] (" ++ r ++ ")") else none

/-- The spec's ordering applied to an entry's fields. -/
def specFieldOrder (fields : List EntryField) : List EntryField :=
  isort (fun a b => specKeyLe a.name b.name) fields

/-- The spec's trace block: a heading plus one `%-10s %-7s %s` line per trace
item, only when tracing was requested. -/
def specTraceBlock (traceFlag : Bool) (ts : List TraceItem) : List String :=
  if traceFlag then
    "-- Processing trace:" ::
      ts.map (fun t => pad 10 t.stage ++ " " ++ pad 7 (t.state.getD "") ++ " " ++ t.message)
  else []

/-- The dump-entry output as the spec describes it. -/
def specDumpEntry (debug evalLazy traceFlag : Bool) (e : DumpEntry) : List String :=
  (specFieldOrder e.fields).filterMap (specRenderField debug evalLazy)
    ++ specTraceBlock traceFlag e.traces ++ [""]

def specDump (debug evalLazy traceFlag : Bool) (entries : List DumpEntry) : List String :=
  entries.flatMap (specDumpEntry debug evalLazy traceFlag)

theorem stripCRLF_lazyPlaceholder : stripCRLF lazyPlaceholder = lazyPlaceholder := by decide

theorem renderField_eq_spec (debug evalLazy : Bool) :
    (fun (f : EntryField) =>
        renderVal debug f.name (if f.lazy && !evalLazy then .str lazyPlaceholder else f.val)) =
      specRenderField debug evalLazy := by
  funext f
  by_cases hl : f.lazy && !evalLazy
  · simp [hl, renderVal, specRenderField, stripCRLF_lazyPlaceholder]
  · simp only [hl, if_neg, Bool.false_eq_true, if_false, specRenderField]
    cases f.val <;> rfl

theorem dumpEntry_eq_spec (debug evalLazy traceFlag : Bool) (e : DumpEntry) :
    dumpEntry debug evalLazy traceFlag e = specDumpEntry debug evalLazy traceFlag e := by
  have hle : (fun (a b : EntryField) => keyLe a.name b.name) =
      (fun (a b : EntryField) => specKeyLe a.name b.name) :=
    funext fun a => funext fun b => keyLe_eq_specKeyLe a.name b.name
  unfold dumpEntry specDumpEntry specFieldOrder specTraceBlock traceLine
  rw [hle, renderField_eq_spec]

/-- C8: the dump output is exactly as the spec describes it: per entry, one
line per printed field in the `%-17s: %s` layout, fields ordered with
`title`, `url`, `original_url` pinned first in that order and all remaining
fields following in sorted order; an unevaluated lazy field prints the fixed
placeholder string; a list-valued field prints as `[v1, v2, ...]`; the
requested trace lines use the `%-10s %-7s %s` layout. -/
theorem c8_dump_output (debug evalLazy traceFlag : Bool) (entries : List DumpEntry) :
    dump debug evalLazy traceFlag entries = specDump debug evalLazy traceFlag entries := by
  unfold dump specDump
  rw [show dumpEntry debug evalLazy traceFlag = specDumpEntry debug evalLazy traceFlag from
    funext fun e => dumpEntry_eq_spec debug evalLazy traceFlag e]

/-! ### InputDeluge: entries generated from the deluge session -/

/-- Values appearing in the torrent dicts returned by
`client.core.get_torrents_status` and stored into generated entries. -/
inductive DVal
  | str (s : String)
  | num (n : Nat)
  | flag (b : Bool)
  | fileDicts (paths : List String)
  | strList (ss : List String)
deriving DecidableEq

/-- The `total_size` format function of `settings_map`:
`lambda size: size / 1024 / 1024`. -/
def sizeFormatFunc : DVal → DVal
  | .num n => .num (n / 1024 / 1024)
  | v => v

/-- The `files` format function of `settings_map`:
`lambda file_dicts: [os.path.basename(f['path']) for f in file_dicts]`. -/
def filesFormatFunc : DVal → DVal
  | .fileDicts ps => .strList (ps.map basename)
  | v => v

/-- Python dict lookup on an association list. -/
def lookupField {β : Type} (k : String) : List (String × β) → Option β
  | [] => none
  | (k', v) :: rest => if k' = k then some v else lookupField k rest

/-- The key pairs of `InputDeluge.settings_map` (plugin_deluge.py lines
164-177): deluge status key to flexget entry key. -/
def settings_map_pairs : List (String × String) :=
  [("name", "title"), ("hash", "torrent_info_hash"), ("num_peers", "torrent_peers"),
   ("num_seeds", "torrent_seeds"), ("private", "deluge_private"), ("state", "deluge_state"),
   ("eta", "deluge_eta"), ("ratio", "deluge_ratio"),
   ("move_on_completed_path", "deluge_movedone"), ("save_path", "deluge_path"),
   ("label", "deluge_label"), ("total_size", "content_size"), ("files", "content_files")]

/-- The format function attached to a `settings_map` value: the two tuple
entries carry their lambda, every other value passes through. -/
def settingsFormatFunc (k : String) : DVal → DVal :=
  if k = "total_size" then sizeFormatFunc
  else if k = "files" then filesFormatFunc
  else id

/-- `InputDeluge.settings_map` as a dict access: the flexget key together
with the format function; `none` models a `KeyError` on an unknown key. -/
def settings_map (k : String) : Option (String × (DVal → DVal)) :=
  (lookupField k settings_map_pairs).map (fun fk => (fk, settingsFormatFunc k))

/-- Python `entry[key] = value` on an entry modelled as an ordered
association list: overwrite in place, or append a new pair. -/
def setItem : List (String × DVal) → String → DVal → List (String × DVal)
  | [], k, v => [(k, v)]
  | (k', v') :: rest, k, v =>
    if k' = k then (k, v) :: rest else (k', v') :: setItem rest k v

/-- `os.path.expanduser` with the given home directory. -/
def pyExpanduser (home s : String) : String :=
  if s = "~" then home
  else if pyStartsWith s "~/" then home ++ String.mk (s.data.drop 1)
  else s

/-- Store the torrent dict's values through `settings_map` (plugin_deluge.py
lines 233-238); an unknown key raises `KeyError`, modelled as `none`. -/
def applySettings : List (String × DVal) → List (String × DVal) → Option (List (String × DVal))
  | fields, [] => some fields
  | fields, (k, v) :: rest =>
    match settings_map k with
    | none => none
    | some (fk, fmt) => applySettings (setItem fields fk (fmt v)) rest

/-- plugin_deluge.py lines 219-232: the entry before the torrent-dict values
are stored.  It starts as `Entry(deluge_id=hash, url='')`; when a config path
is set and the state torrent file exists, `location` is stored and `url` is
overwritten with a `file://` url. -/
def initInputFields (home : String) (configPath : Option String) (fs : List String)
    (hash : String) : List (String × DVal) :=
  let cp := pyExpanduser home (configPath.getD "")
  let fields := [("deluge_id", DVal.str hash), ("url", DVal.str "")]
  if cp ≠ "" then
    let tp := pathJoin (pathJoin cp "state") (hash ++ ".torrent")
    if tp ∈ fs then
      let fields := setItem fields "location" (.str tp)
      let tp2 := if pyStartsWith tp "/" then tp else "/" ++ tp
      setItem fields "url" (.str ("file://" ++ tp2))
    else fields
  else fields

/-- plugin_deluge.py lines 219-239: build one entry from a torrent loaded in
the deluge session: the initial fields, then every torrent-dict value stored
through `settings_map`. -/
def buildInputEntry (home : String) (configPath : Option String) (fs : List String)
    (hash : String) (tdict : List (String × DVal)) : Option (List (String × DVal)) :=
  applySettings (initInputFields home configPath fs hash) tdict

theorem lookupField_setItem_ne (k k' : String) (v : DVal) (h : k ≠ k') :
    ∀ fields, lookupField k' (setItem fields k v) = lookupField k' fields := by
  intro fields
  induction fields with
  | nil => simp [setItem, lookupField, h]
  | cons p rest ih =>
    obtain ⟨pk, pv⟩ := p
    by_cases hp : pk = k
    · subst hp
      simp [setItem, lookupField, h]
    · simp [setItem, lookupField, hp, ih]

theorem lookupField_setItem_self (k : String) (v : DVal) :
    ∀ fields, lookupField k (setItem fields k v) = some v := by
  intro fields
  induction fields with
  | nil => simp [setItem, lookupField]
  | cons p rest ih =>
    obtain ⟨pk, pv⟩ := p
    by_cases hp : pk = k
    · subst hp
      simp [setItem, lookupField]
    · simp [setItem, lookupField, hp, ih]

theorem lookupField_mem {β : Type} :
    ∀ (l : List (String × β)) (k : String) (v : β),
      lookupField k l = some v → (k, v) ∈ l := by
  intro l
  induction l with
  | nil => intro k v h; simp [lookupField] at h
  | cons p rest ih =>
    intro k v h
    obtain ⟨pk, pv⟩ := p
    rw [lookupField] at h
    by_cases hp : pk = k
    · rw [if_pos hp] at h
      injection h with h2
      subst hp
      subst h2
      exact List.mem_cons_self _ _
    · rw [if_neg hp] at h
      exact List.mem_cons_of_mem _ (ih k v h)

theorem settings_map_not_url (k fk : String) (fmt : DVal → DVal)
    (h : settings_map k = some (fk, fmt)) : fk ≠ "url" := by
  unfold settings_map at h
  obtain ⟨a, ha, hpair⟩ := Option.map_eq_some'.mp h
  injection hpair with h4 h5
  have ha2 : lookupField k settings_map_pairs = some fk := by rw [← h4]; exact ha
  have hmem := lookupField_mem settings_map_pairs k fk ha2
  have hall : ∀ p ∈ settings_map_pairs, p.2 ≠ "url" := by decide
  exact hall (k, fk) hmem

theorem applySettings_preserves_url :
    ∀ (tdict fields out : List (String × DVal)),
      applySettings fields tdict = some out →
      lookupField "url" out = lookupField "url" fields := by
  intro tdict
  induction tdict with
  | nil =>
    intro fields out h
    simp [applySettings] at h
    rw [h]
  | cons kv rest ih =>
    intro fields out h
    obtain ⟨k, v⟩ := kv
    rw [applySettings] at h
    cases hm : settings_map k with
    | none => rw [hm] at h; exact absurd h (by simp)
    | some p =>
      obtain ⟨fk, fmt⟩ := p
      rw [hm] at h
      rw [ih _ _ h, lookupField_setItem_ne fk "url" (fmt v) (settings_map_not_url k fk fmt hm)]

theorem isPrefixOfCharList_append (l m : List Char) :
    isPrefixOfCharList l (l ++ m) = true := by
  induction l with
  | nil => rfl
  | cons c cs ih => simp [isPrefixOfCharList, ih]

theorem pyStartsWith_append (pre rest : String) :
    pyStartsWith (pre ++ rest) pre = true := by
  unfold pyStartsWith
  rw [show (pre ++ rest).data = pre.data ++ rest.data from String.data_append pre rest]
  exact isPrefixOfCharList_append pre.data rest.data


theorem initInputFields_url (home : String) (configPath : Option String)
    (fs : List String) (hash : String) :
    ∃ u, lookupField "url" (initInputFields home configPath fs hash) = some (.str u) ∧
      (u = "" ∨ pyStartsWith u "file://" = true) := by
  unfold initInputFields
  by_cases h1 : pyExpanduser home (configPath.getD "") ≠ ""
  · rw [if_pos h1]
    by_cases h2 :
        pathJoin (pathJoin (pyExpanduser home (configPath.getD "")) "state")
          (hash ++ ".torrent") ∈ fs
    · rw [if_pos h2]
      refine ⟨_, lookupField_setItem_self "url" _ _, Or.inr ?_⟩
      exact pyStartsWith_append "file://" _
    · rw [if_neg h2]
      exact ⟨"", by simp [lookupField], Or.inl rfl⟩
  · rw [if_neg h1]
    exact ⟨"", by simp [lookupField], Or.inl rfl⟩

/-- C10: every entry generated by the deluge input plugin has a `url` field:
it is created with `url` set to the empty string and only ever overwritten
with a `file://` url (no `settings_map` target is `url`), so whenever the
entry is produced the key is present and holds either the empty string or a
`file://` url. -/
theorem c10_url_always_present (home : String) (configPath : Option String)
    (fs : List String) (hash : String) (tdict : List (String × DVal))
    (out : List (String × DVal))
    (h : buildInputEntry home configPath fs hash tdict = some out) :
    ∃ u, lookupField "url" out = some (.str u) ∧
      (u = "" ∨ pyStartsWith u "file://" = true) := by
  unfold buildInputEntry at h
  obtain ⟨u, hu, hform⟩ := initInputFields_url home configPath fs hash
  exact ⟨u, (applySettings_preserves_url tdict _ out h).trans hu, hform⟩

theorem c10_witness :
    ∃ u, lookupField "url"
        [("deluge_id", DVal.str "ab12"), ("url", DVal.str ""), ("title", DVal.str "x")] =
      some (.str u) ∧ (u = "" ∨ pyStartsWith u "file://" = true) :=
  c10_url_always_present "" none [] "ab12" [("name", DVal.str "x")] _ (by decide)
